import Mathlib

/-!
Verification of the Polaris kernel's PCI configuration-space access layer
(`kernel/pci/pci.c`) and thread lifecycle subsystem (`kernel/sched/thread.c`),
via a shallow embedding of both C files into Lean.

Machine integers are modelled as `Nat` with explicit `% 2 ^ w` and `&&&`
masks where the C code truncates.  Port I/O and MMIO intrinsics, which the
spec treats as external atomic read/write primitives, are modelled as
operations on explicit byte stores.  Each C function is embedded as a pure
function returning its result, its updated store, and a trace of the
observable actions (port accesses, memory accesses, diagnostics) it performs.
-/

namespace Polaris

namespace Pci

/-- Observable actions of the PCI layer: legacy port accesses, memory-mapped
accesses, and `printf` diagnostics (identified by which format string the C
code prints, with the printed arguments). -/
inductive Ev where
  | outb (port value : Nat)
  | outw (port value : Nat)
  | outd (port value : Nat)
  | inb (port : Nat)
  | inw (port : Nat)
  | ind (port : Nat)
  | memReadB (addr : Nat)
  | memReadW (addr : Nat)
  | memReadD (addr : Nat)
  | memWriteB (addr value : Nat)
  | memWriteW (addr value : Nat)
  | memWriteD (addr value : Nat)
  | logUnknownSize (size : Nat)
  | logNoDevice (seg bus slot func : Nat)
  deriving DecidableEq, Repr

/-- Write `n` bytes of `value`, little endian, at address `a` of byte store
`m`.  Used to model the multi-byte port/MMIO write intrinsics. -/
def writeBytes (m : Nat → Nat) (a value : Nat) : Nat → (Nat → Nat)
  | 0 => m
  | n + 1 =>
    writeBytes (fun x => if x = a then value % 256 else m x) (a + 1) (value / 256) n

/-- Read `n` bytes, little endian, at address `a` of byte store `m`.  Each
byte lane returns 8 bits, as the hardware intrinsics do. -/
def readBytes (m : Nat → Nat) (a : Nat) : Nat → Nat
  | 0 => 0
  | n + 1 => m a % 256 + 256 * readBytes m (a + 1) n

/-- Modelled from the spec: low-level port I/O primitives are external
collaborators ("treated as atomic read/write intrinsics").  The legacy PCI
port pair is a latch register at port 0xCF8 and a byte store of
configuration space addressed through it; data-port accesses at
0xCFC..0xCFF address the configuration bytes selected by the latch. -/
structure PortSpace where
  latch : Nat
  mem : Nat → Nat

/-- Configuration-space byte addressed by latch value `latch` and data-port
byte lane `lane` (the enable bit and the low two register bits of the latch
do not reach the bus). -/
def confTarget (latch lane : Nat) : Nat :=
  (latch &&& 0xFFFFFC) + lane

/-- Modelled from the spec: `port_dword_out` intrinsic.  A 32-bit write to
0xCF8 sets the latch; a write to the data ports stores four bytes. -/
def port_dword_out (b : PortSpace) (port value : Nat) : PortSpace :=
  if port = 0xCF8 then
    { b with latch := value % 2 ^ 32 }
  else if 0xCFC ≤ port ∧ port ≤ 0xCFF then
    { b with mem := writeBytes b.mem (confTarget b.latch (port - 0xCFC)) value 4 }
  else b

/-- Modelled from the spec: `port_word_out` intrinsic. -/
def port_word_out (b : PortSpace) (port value : Nat) : PortSpace :=
  if 0xCFC ≤ port ∧ port ≤ 0xCFF then
    { b with mem := writeBytes b.mem (confTarget b.latch (port - 0xCFC)) value 2 }
  else b

/-- Modelled from the spec: `port_byte_out` intrinsic. -/
def port_byte_out (b : PortSpace) (port value : Nat) : PortSpace :=
  if 0xCFC ≤ port ∧ port ≤ 0xCFF then
    { b with mem := writeBytes b.mem (confTarget b.latch (port - 0xCFC)) value 1 }
  else b

/-- Modelled from the spec: `port_byte_in` intrinsic. -/
def port_byte_in (b : PortSpace) (port : Nat) : Nat :=
  if 0xCFC ≤ port ∧ port ≤ 0xCFF then
    readBytes b.mem (confTarget b.latch (port - 0xCFC)) 1
  else 0

/-- Modelled from the spec: `port_word_in` intrinsic. -/
def port_word_in (b : PortSpace) (port : Nat) : Nat :=
  if 0xCFC ≤ port ∧ port ≤ 0xCFF then
    readBytes b.mem (confTarget b.latch (port - 0xCFC)) 2
  else 0

/-- Modelled from the spec: `port_dword_in` intrinsic. -/
def port_dword_in (b : PortSpace) (port : Nat) : Nat :=
  if 0xCFC ≤ port ∧ port ≤ 0xCFF then
    readBytes b.mem (confTarget b.latch (port - 0xCFC)) 4
  else 0

/-- `make_pci_address` from pci.c: encodes bus/slot/function/offset into the
32-bit configuration address word with the enable bit set. -/
def make_pci_address (bus slot func offset : Nat) : Nat :=
  (bus <<< 16) ||| (slot <<< 11) ||| (func <<< 8) ||| (offset &&& 0xFFFC) |||
    (1 <<< 31)

/-- `legacy_pci_read` from pci.c.  Returns the updated port state, the value
read, and the trace of actions.  The C switch on `access_size` is embedded
as nested conditionals; `seg` is unused (`(void)seg` in the source). -/
def legacy_pci_read (b : PortSpace) (seg bus slot func offset access_size : Nat) :
    PortSpace × Nat × List Ev :=
  let _ := seg
  let b1 := port_dword_out b 0xCF8 (make_pci_address bus slot func offset)
  let e0 := Ev.outd 0xCF8 (make_pci_address bus slot func offset)
  if access_size = 1 then
    (b1, port_byte_in b1 (0xCFC + (offset &&& 3)), [e0, Ev.inb (0xCFC + (offset &&& 3))])
  else if access_size = 2 then
    (b1, port_word_in b1 (0xCFC + (offset &&& 2)), [e0, Ev.inw (0xCFC + (offset &&& 2))])
  else if access_size = 4 then
    (b1, port_dword_in b1 0xCFC, [e0, Ev.ind 0xCFC])
  else
    (b1, 0, [e0, Ev.logUnknownSize access_size])

/-- `legacy_pci_write` from pci.c.  Returns the updated port state and the
trace of actions. -/
def legacy_pci_write (b : PortSpace) (seg bus slot func offset value access_size : Nat) :
    PortSpace × List Ev :=
  let _ := seg
  let b1 := port_dword_out b 0xCF8 (make_pci_address bus slot func offset)
  let e0 := Ev.outd 0xCF8 (make_pci_address bus slot func offset)
  if access_size = 1 then
    (port_byte_out b1 (0xCFC + (offset &&& 3)) value,
     [e0, Ev.outb (0xCFC + (offset &&& 3)) value])
  else if access_size = 2 then
    (port_word_out b1 (0xCFC + (offset &&& 2)) value,
     [e0, Ev.outw (0xCFC + (offset &&& 2)) value])
  else if access_size = 4 then
    (port_dword_out b1 0xCFC value, [e0, Ev.outd 0xCFC value])
  else
    (b1, [e0, Ev.logUnknownSize access_size])

/-- `struct mcfg_entry` (firmware bus-geometry record): segment, inclusive
bus range, base physical address. -/
structure mcfg_entry where
  base : Nat
  seg : Nat
  start_bus_number : Nat
  end_bus_number : Nat
  deriving DecidableEq, Repr

/-- The device base address computed inline by `mcfg_pci_read` and
`mcfg_pci_write`: `entry->base + ((bus - start_bus) << 20 | slot << 15 |
function << 12)`. -/
def mcfg_device_base (e : mcfg_entry) (bus slot func : Nat) : Nat :=
  e.base + (((bus - e.start_bus_number) <<< 20) ||| (slot <<< 15) ||| (func <<< 12))

/-- Modelled from the spec: `mminb` MMIO intrinsic (byte read). -/
def mminb (m : Nat → Nat) (addr : Nat) : Nat := readBytes m addr 1

/-- Modelled from the spec: `mminw` MMIO intrinsic (16-bit read). -/
def mminw (m : Nat → Nat) (addr : Nat) : Nat := readBytes m addr 2

/-- Modelled from the spec: `mmind` MMIO intrinsic (32-bit read). -/
def mmind (m : Nat → Nat) (addr : Nat) : Nat := readBytes m addr 4

/-- Modelled from the spec: `mmoutb` MMIO intrinsic (byte write). -/
def mmoutb (m : Nat → Nat) (addr value : Nat) : Nat → Nat := writeBytes m addr value 1

/-- Modelled from the spec: `mmoutw` MMIO intrinsic (16-bit write). -/
def mmoutw (m : Nat → Nat) (addr value : Nat) : Nat → Nat := writeBytes m addr value 2

/-- Modelled from the spec: `mmoutd` MMIO intrinsic (32-bit write). -/
def mmoutd (m : Nat → Nat) (addr value : Nat) : Nat → Nat := writeBytes m addr value 4

/-- `mcfg_pci_read` from pci.c.  `physOff` is the `MEM_PHYS_OFFSET`
translation constant (defined outside this file's sources, kept symbolic).
Note the source forms the address with `... | offset` (bitwise or) on the
read path, and that an unknown access size inside a matching entry falls
out of the switch and continues the entry loop. -/
def mcfg_pci_read (physOff : Nat) (entries : List mcfg_entry) (m : Nat → Nat)
    (seg bus slot func offset access_size : Nat) : Nat × List Ev :=
  match entries with
  | [] => (0, [Ev.logNoDevice seg bus slot func])
  | e :: rest =>
    if e.seg = seg ∧ e.start_bus_number ≤ bus ∧ bus ≤ e.end_bus_number then
      let addr := (mcfg_device_base e bus slot func ||| offset) + physOff
      if access_size = 1 then (mminb m addr, [Ev.memReadB addr])
      else if access_size = 2 then (mminw m addr, [Ev.memReadW addr])
      else if access_size = 4 then (mmind m addr, [Ev.memReadD addr])
      else
        let r := mcfg_pci_read physOff rest m seg bus slot func offset access_size
        (r.1, Ev.logUnknownSize access_size :: r.2)
    else mcfg_pci_read physOff rest m seg bus slot func offset access_size

/-- `mcfg_pci_write` from pci.c.  Note the source forms the address with
`... + offset` (addition) on the write path, and that the write returns
after the first matching entry even on an unknown access size. -/
def mcfg_pci_write (physOff : Nat) (entries : List mcfg_entry) (m : Nat → Nat)
    (seg bus slot func offset value access_size : Nat) : (Nat → Nat) × List Ev :=
  match entries with
  | [] => (m, [Ev.logNoDevice seg bus slot func])
  | e :: rest =>
    if e.seg = seg ∧ e.start_bus_number ≤ bus ∧ bus ≤ e.end_bus_number then
      let addr := (mcfg_device_base e bus slot func + offset) + physOff
      if access_size = 1 then (mmoutb m addr value, [Ev.memWriteB addr value])
      else if access_size = 2 then (mmoutw m addr value, [Ev.memWriteW addr value])
      else if access_size = 4 then (mmoutd m addr value, [Ev.memWriteD addr value])
      else (m, [Ev.logUnknownSize access_size])
    else mcfg_pci_write physOff rest m seg bus slot func offset value access_size

/-- ACPI system-description-table header, of which only the length field is
read by pci.c. -/
structure acpi_sdt_header where
  length : Nat
  deriving DecidableEq, Repr

/-- `struct mcfg`: the firmware MCFG table, a header followed by entries.
The flexible entry array is modelled as a total function from index. -/
structure mcfg where
  header : acpi_sdt_header
  entries : Nat → mcfg_entry

/-- The two bus-access strategies the boot-time selector chooses between. -/
inductive Strategy where
  | legacy
  | mcfg
  deriving DecidableEq, Repr

/-- `pci_init` from pci.c, as a function of the probed firmware table
(`none` models `acpi_find_sdt` returning NULL).  `sizeof_mcfg` and
`sizeof_entry` are `sizeof(struct mcfg)` and `sizeof(struct mcfg_entry)`,
kept symbolic since the struct layouts live in a header outside these
sources.  Returns the selected strategy and the loaded entry table. -/
def pci_init (sizeof_mcfg sizeof_entry : Nat) (tbl : Option mcfg) :
    Strategy × List mcfg_entry :=
  match tbl with
  | none => (Strategy.legacy, [])
  | some mc =>
    if mc.header.length < sizeof_mcfg + sizeof_entry then
      (Strategy.legacy, [])
    else
      let entries := (mc.header.length - sizeof_mcfg) / sizeof_entry
      (Strategy.mcfg, (List.range entries).map fun i => mc.entries i)

/-- The PCI layer's state after `pci_init`: the selected strategy and entry
table (the `internal_read`/`internal_write` pointers and `mcfg_entries`),
plus the stores the two strategies act on. -/
structure PciState where
  strategy : Strategy
  mcfg_entries : List mcfg_entry
  ports : PortSpace
  mem : Nat → Nat

/-- `pci_read` from pci.c: dispatch through the selected strategy. -/
def pci_read (physOff : Nat) (s : PciState) (seg bus slot func offset access_size : Nat) :
    PciState × Nat × List Ev :=
  match s.strategy with
  | Strategy.legacy =>
    let r := legacy_pci_read s.ports seg bus slot func offset access_size
    ({ s with ports := r.1 }, r.2.1, r.2.2)
  | Strategy.mcfg =>
    let r := mcfg_pci_read physOff s.mcfg_entries s.mem seg bus slot func offset access_size
    (s, r.1, r.2)

/-- `pci_write` from pci.c: dispatch through the selected strategy. -/
def pci_write (physOff : Nat) (s : PciState) (seg bus slot func offset value access_size : Nat) :
    PciState × List Ev :=
  match s.strategy with
  | Strategy.legacy =>
    let r := legacy_pci_write s.ports seg bus slot func offset value access_size
    ({ s with ports := r.1 }, r.2)
  | Strategy.mcfg =>
    let r := mcfg_pci_write physOff s.mcfg_entries s.mem seg bus slot func offset value access_size
    ({ s with mem := r.1 }, r.2)

/-- The data ports touched by a trace: every port access except the
configuration-address latch writes to 0xCF8. -/
def dataPorts (tr : List Ev) : List Nat :=
  tr.filterMap fun e =>
    match e with
    | Ev.outb p _ => some p
    | Ev.outw p _ => some p
    | Ev.outd p _ => if p = 0xCF8 then none else some p
    | Ev.inb p => some p
    | Ev.inw p => some p
    | Ev.ind p => some p
    | _ => none

/-- Whether an event is a bus access (port or memory), as opposed to a
diagnostic log. -/
def busAccess (e : Ev) : Bool :=
  match e with
  | Ev.logUnknownSize _ => false
  | Ev.logNoDevice _ _ _ _ => false
  | _ => true

/-- An all-zero port space, used for concrete evaluations. -/
def ports0 : PortSpace := { latch := 0, mem := fun _ => 0 }

/-- An all-zero MMIO byte store, used for concrete evaluations. -/
def mem0 : Nat → Nat := fun _ => 0

end Pci

namespace Sched

/-- Thread lifecycle states, from thread.h as used by thread.c (the spec's
INITIAL → READY → RUNNING ⇄ BLOCKED → TERMINATED machine). -/
inductive thread_state where
  | INITIAL
  | READY
  | RUNNING
  | BLOCKED
  | TERMINATED
  deriving DecidableEq, Repr

/-- Block reasons, from thread.h as used by thread.c. -/
inductive block_on where
  | NOTHING
  | ON_SLEEP
  | ON_WAIT
  deriving DecidableEq, Repr

/-- Modelled from the spec: `struct cpu_context` (thread.h is outside these
sources).  The saved registers thread.c touches (`rip`, `rdi`) are explicit;
the remaining saved registers are an indexed family. -/
structure cpu_context where
  rip : Nat
  rdi : Nat
  others : Nat → Nat

/-- The all-zero execution context produced by `memset(ctx, 0, size)`. -/
def cpu_context_zero : cpu_context := { rip := 0, rdi := 0, others := fun _ => 0 }

/-- `struct thread`: the fields thread.c reads or writes.  `context_addr` is
the address stored in the `context` pointer, `context` the record behind it. -/
structure thread where
  tid : Nat
  state_t : thread_state
  block_t : block_on
  tstack : Nat
  context_addr : Nat
  context : cpu_context
  killed : Bool
  target_tick : Nat
  return_val : Nat

/-- `struct process`: the fields thread.c reads or writes.  `ppagemap` is
the list of (virtual, physical, flags) mappings installed by `vmm_map`. -/
structure process where
  ppagemap : List (Nat × Nat × Nat)
  current_top_addr : Nat
  ttable : List thread
  return_code : Nat

/-- The compile-time constants of thread.c whose values live in headers
outside these sources: stack sizes, page size, and
`sizeof(struct cpu_context)`. -/
structure ThreadCfg where
  TSTACK_SIZE : Nat
  KSTACK_SIZE : Nat
  PAGE_SIZE : Nat
  sizeof_cpu_context : Nat

/-- Observable actions of thread.c, at the granularity of the claims: lock
operations, interrupt disabling, and the individual field writes. -/
inductive TEv where
  | lock
  | unlock
  | cli
  | allocStack
  | mapPage (virt phys : Nat)
  | writeState (s : thread_state)
  | writeBlock (b : block_on)
  | writeTid (tid : Nat)
  | writeContext
  | writeKilled
  | writeTargetTick (t : Nat)
  | writeRetVal (v : Nat)
  | writeReturnCode (v : Nat)
  | push
  | freeStack
  | processExit
  | yield
  | panic
  deriving DecidableEq, Repr

/-- Number of iterations of the `for (i = 0; i < TSTACK_SIZE; i += PAGE_SIZE)`
mapping loop. -/
def numStackPages (cfg : ThreadCfg) : Nat :=
  (cfg.TSTACK_SIZE + cfg.PAGE_SIZE - 1) / cfg.PAGE_SIZE

/-- `alloc_new_thread` from thread.c.  `tmem` is the uninitialised record
returned by `kmalloc` (fields the function does not write keep their
incoming garbage values); `stack_addr` is the address returned by
`pmm_allocz` (0 models allocation failure, on which the C code panics, so
the result is `none`); `nid` is the current value of the `nextid` counter.
Returns the new thread, the process with the stack pages mapped, and the
advanced counter, together with the action trace. -/
def alloc_new_thread (cfg : ThreadCfg) (proc : process) (tmem : thread)
    (stack_addr nid : Nat) : Option (thread × process × Nat) × List TEv :=
  let maps := (List.range (numStackPages cfg)).map fun i =>
    (proc.current_top_addr + i * cfg.PAGE_SIZE, stack_addr + i * cfg.PAGE_SIZE, 3)
  let mapEvs := maps.map fun p => TEv.mapPage p.1 p.2.1
  let proc1 := { proc with ppagemap := proc.ppagemap ++ maps }
  if stack_addr = 0 then
    (none, [TEv.lock, TEv.allocStack] ++ mapEvs ++ [TEv.panic])
  else
    let thrd := { tmem with
      tstack := stack_addr
      state_t := thread_state.INITIAL
      block_t := block_on.NOTHING
      tid := nid
      context_addr := stack_addr + cfg.KSTACK_SIZE - cfg.sizeof_cpu_context
      context := cpu_context_zero }
    (some (thrd, proc1, nid + 1),
     [TEv.lock, TEv.allocStack] ++ mapEvs ++
       [TEv.writeState thread_state.INITIAL, TEv.writeBlock block_on.NOTHING,
        TEv.writeTid nid, TEv.unlock, TEv.writeContext])

/-- `thread_init` from thread.c: allocate, prime `rip`/`rdi`, clear the
killed flag, set READY under the lock, and append to `proc`'s thread
table.  Returns the updated process and `nextid`. -/
def thread_init (cfg : ThreadCfg) (proc : process) (tmem : thread)
    (stack_addr nid addr args : Nat) : Option (process × Nat) × List TEv :=
  match alloc_new_thread cfg proc tmem stack_addr nid with
  | (none, tr) => (none, tr)
  | (some (thrd, proc1, nid1), tr) =>
    let thrd1 := { thrd with
      context := { thrd.context with rip := addr, rdi := args }
      killed := false
      state_t := thread_state.READY }
    (some ({ proc1 with ttable := proc1.ttable ++ [thrd1] }, nid1),
     tr ++ [TEv.writeContext, TEv.writeContext, TEv.writeKilled, TEv.lock,
            TEv.writeState thread_state.READY, TEv.unlock, TEv.push])

/-- `thread_create` from thread.c: identical body to `thread_init` but
targeting the currently running process (`running_proc()`), here passed as
`runproc`. -/
def thread_create (cfg : ThreadCfg) (runproc : process) (tmem : thread)
    (stack_addr nid addr args : Nat) : Option (process × Nat) × List TEv :=
  match alloc_new_thread cfg runproc tmem stack_addr nid with
  | (none, tr) => (none, tr)
  | (some (thrd, proc1, nid1), tr) =>
    let thrd1 := { thrd with
      context := { thrd.context with rip := addr, rdi := args }
      killed := false
      state_t := thread_state.READY }
    (some ({ proc1 with ttable := proc1.ttable ++ [thrd1] }, nid1),
     tr ++ [TEv.writeContext, TEv.writeContext, TEv.writeKilled, TEv.lock,
            TEv.writeState thread_state.READY, TEv.unlock, TEv.push])

/-- `thread_block` from thread.c: disable interrupts, record the block
reason and BLOCKED state on the running thread, yield. -/
def thread_block (thrd : thread) (reason : block_on) : thread × List TEv :=
  ({ thrd with block_t := reason, state_t := thread_state.BLOCKED },
   [TEv.cli, TEv.writeBlock reason, TEv.writeState thread_state.BLOCKED, TEv.yield])

/-- `thread_unblock` from thread.c: disable interrupts, clear the block
reason, set READY. -/
def thread_unblock (thrd : thread) : thread × List TEv :=
  ({ thrd with block_t := block_on.NOTHING, state_t := thread_state.READY },
   [TEv.cli, TEv.writeBlock block_on.NOTHING, TEv.writeState thread_state.READY])

/-- `thread_exit` from thread.c, for running thread `thrd` of process
`proc`.  Returns the updated thread and process, whether `process_exit`
was invoked, and the action trace.  The thread is the main thread when it
is `ttable.data[0]` (pointer identity, represented by the unique tid). -/
def thread_exit (cfg : ThreadCfg) (thrd : thread) (proc : process)
    (return_val : Nat) : thread × process × Bool × List TEv :=
  let r1 :=
    if thrd.state_t = thread_state.BLOCKED ∧ thrd.block_t = block_on.ON_WAIT then
      thread_unblock thrd
    else (thrd, [])
  let thrd2 := { r1.1 with state_t := thread_state.TERMINATED, return_val := return_val }
  let tr2 := r1.2 ++ [TEv.writeState thread_state.TERMINATED,
                      TEv.writeRetVal return_val, TEv.freeStack]
  let isMain :=
    match proc.ttable.head? with
    | none => false
    | some t0 => t0.tid = thrd.tid
  if isMain then
    (thrd2, { proc with return_code := return_val % 256 }, true,
     tr2 ++ [TEv.writeReturnCode (return_val % 256), TEv.processExit, TEv.yield])
  else
    (thrd2, proc, false, tr2 ++ [TEv.yield])

/-- `thread_sleep` from thread.c: record the absolute wake tick, then block
with reason ON_SLEEP while holding the thread lock. -/
def thread_sleep (thrd : thread) (timer_tick sleep_ticks : Nat) : thread × List TEv :=
  let targetick := timer_tick + sleep_ticks
  let thrd1 := { thrd with target_tick := targetick }
  let r := thread_block thrd1 block_on.ON_SLEEP
  (r.1, [TEv.writeTargetTick targetick, TEv.lock] ++ r.2 ++ [TEv.unlock])

/-- Whether an event writes a thread's lifecycle-state or block-reason
field. -/
def isStateWrite (e : TEv) : Bool :=
  match e with
  | TEv.writeState _ => true
  | TEv.writeBlock _ => true
  | _ => false

/-- `writesUnderLock d tr` holds when every lifecycle-state write,
block-reason write, and thread-id (next-id counter) write in `tr` happens
at positive lock depth, starting from depth `d`. -/
def writesUnderLock (d : Nat) : List TEv → Bool
  | [] => true
  | e :: es =>
    match e with
    | TEv.lock => writesUnderLock (d + 1) es
    | TEv.unlock => writesUnderLock (d - 1) es
    | TEv.writeState _ => decide (0 < d) && writesUnderLock d es
    | TEv.writeBlock _ => decide (0 < d) && writesUnderLock d es
    | TEv.writeTid _ => decide (0 < d) && writesUnderLock d es
    | _ => writesUnderLock d es

/-- A concrete thread record, used as `kmalloc` garbage in witnesses. -/
def tmem0 : thread :=
  { tid := 0, state_t := thread_state.RUNNING, block_t := block_on.NOTHING,
    tstack := 0, context_addr := 0, context := cpu_context_zero,
    killed := true, target_tick := 7, return_val := 7 }

/-- A concrete configuration with 16 KiB stacks, 4 KiB pages and a 200-byte
context record, used in witnesses. -/
def cfg0 : ThreadCfg :=
  { TSTACK_SIZE := 16384, KSTACK_SIZE := 16384, PAGE_SIZE := 4096,
    sizeof_cpu_context := 200 }

/-- A concrete empty process, used in witnesses. -/
def proc0 : process :=
  { ppagemap := [], current_top_addr := 0x70000000000, ttable := [], return_code := 0 }

end Sched

namespace Pci

theorem writeBytes_out (n : Nat) : ∀ (m : Nat → Nat) (a v x : Nat), x < a →
    writeBytes m a v n x = m x := by
  induction n with
  | zero => intro m a v x _; rfl
  | succ n ih =>
    intro m a v x hx
    simp only [writeBytes]
    rw [ih _ (a + 1) _ x (by omega)]
    simp [Nat.ne_of_lt hx]

theorem readBytes_writeBytes (n : Nat) : ∀ (m : Nat → Nat) (a v : Nat),
    readBytes (writeBytes m a v n) a n = v % 2 ^ (8 * n) := by
  induction n with
  | zero => intro m a v; simp [readBytes, writeBytes, Nat.mod_one]
  | succ n ih =>
    intro m a v
    simp only [writeBytes, readBytes]
    rw [writeBytes_out n _ (a + 1) _ a (by omega)]
    simp only [eq_self_iff_true, if_true]
    rw [ih]
    rw [show 8 * (n + 1) = 8 + 8 * n by ring, pow_add]
    rw [show (2 : Nat) ^ 8 = 256 by norm_num]
    rw [Nat.mod_mul]
    omega

/-- C2: as written the claim predicts data port `0xCFC + (offset &&& (size - 1))`,
so `0xCFC` for a one-byte access; but at offset 1 with access size 1 the
code accesses data port `0xCFC + (offset &&& 3) = 0xCFD`. -/
theorem C2_counterexample :
    dataPorts (legacy_pci_read ports0 0 0 0 0 1 1).2.2 = [0xCFD] ∧
    (0xCFD : Nat) ≠ 0xCFC + (1 &&& (1 - 1)) := by
  constructor
  · rfl
  · decide

/-- C2 (amended): for every offset, the legacy strategy performs its
data-port access at `0xCFC + (offset &&& 3)` for size 1, at
`0xCFC + (offset &&& 2)` for size 2, and at `0xCFC` for size 4, on both the
read and the write path. -/
theorem C2_amended (b : PortSpace) (seg bus slot func offset value : Nat) :
    dataPorts (legacy_pci_read b seg bus slot func offset 1).2.2 =
      [0xCFC + (offset &&& 3)] ∧
    dataPorts (legacy_pci_read b seg bus slot func offset 2).2.2 =
      [0xCFC + (offset &&& 2)] ∧
    dataPorts (legacy_pci_read b seg bus slot func offset 4).2.2 = [0xCFC] ∧
    dataPorts (legacy_pci_write b seg bus slot func offset value 1).2 =
      [0xCFC + (offset &&& 3)] ∧
    dataPorts (legacy_pci_write b seg bus slot func offset value 2).2 =
      [0xCFC + (offset &&& 2)] ∧
    dataPorts (legacy_pci_write b seg bus slot func offset value 4).2 = [0xCFC] := by
  refine ⟨rfl, rfl, rfl, rfl, rfl, rfl⟩

/-- C10: under the legacy strategy the segment argument has no influence:
two reads (or writes) differing only in the segment produce identical
states, values, and port-action traces. -/
theorem C10_legacy_seg_irrelevant (b : PortSpace)
    (seg seg' bus slot func offset value access_size : Nat) :
    legacy_pci_read b seg bus slot func offset access_size =
      legacy_pci_read b seg' bus slot func offset access_size ∧
    legacy_pci_write b seg bus slot func offset value access_size =
      legacy_pci_write b seg' bus slot func offset value access_size :=
  ⟨rfl, rfl⟩

/-- A concrete firmware entry (segment 0, bus range [0,0], base 0), used in
witnesses and counterexamples. -/
def entry0 : mcfg_entry :=
  { base := 0, seg := 0, start_bus_number := 0, end_bus_number := 0 }

/-- A concrete firmware MCFG table holding exactly one entry, assuming the
standard layout sizes (44-byte `struct mcfg`, 16-byte entries). -/
def mcfg0 : mcfg := { header := { length := 60 }, entries := fun _ => entry0 }

/-- A PCI state that selected the legacy strategy, over zeroed stores. -/
def legacyState0 : PciState :=
  { strategy := Strategy.legacy, mcfg_entries := [], ports := ports0, mem := mem0 }

/-- A PCI state that selected the memory-mapped strategy with the one-entry
table, over zeroed stores. -/
def mcfgState0 : PciState :=
  { strategy := Strategy.mcfg, mcfg_entries := [entry0], ports := ports0, mem := mem0 }

/-- C6: pci_init selects the legacy strategy exactly when the firmware table
is absent or its header length admits no full entry; otherwise it loads
every entry implied by the header length and selects the memory-mapped
strategy; pci_read and pci_write dispatch to whichever strategy the state
records. -/
theorem C6_pci_init_selection (sizeof_mcfg sizeof_entry physOff : Nat)
    (tbl : Option mcfg) (s : PciState)
    (seg bus slot func offset value access_size : Nat) :
    ((pci_init sizeof_mcfg sizeof_entry tbl).1 = Strategy.legacy ↔
      tbl = none ∨ ∃ mc, tbl = some mc ∧
        mc.header.length < sizeof_mcfg + sizeof_entry) ∧
    (∀ mc, tbl = some mc → sizeof_mcfg + sizeof_entry ≤ mc.header.length →
      pci_init sizeof_mcfg sizeof_entry tbl =
        (Strategy.mcfg,
         (List.range ((mc.header.length - sizeof_mcfg) / sizeof_entry)).map
           mc.entries)) ∧
    (s.strategy = Strategy.legacy →
      (pci_read physOff s seg bus slot func offset access_size).2 =
        (legacy_pci_read s.ports seg bus slot func offset access_size).2 ∧
      (pci_write physOff s seg bus slot func offset value access_size).2 =
        (legacy_pci_write s.ports seg bus slot func offset value access_size).2) ∧
    (s.strategy = Strategy.mcfg →
      (pci_read physOff s seg bus slot func offset access_size).2 =
        mcfg_pci_read physOff s.mcfg_entries s.mem seg bus slot func offset
          access_size ∧
      (pci_write physOff s seg bus slot func offset value access_size).2 =
        (mcfg_pci_write physOff s.mcfg_entries s.mem seg bus slot func offset
          value access_size).2) := by
  obtain ⟨st, es, pb, pm⟩ := s
  refine ⟨?_, ?_, ?_, ?_⟩
  · cases tbl with
    | none => simp [pci_init]
    | some mc =>
      by_cases h : mc.header.length < sizeof_mcfg + sizeof_entry
      · simp [pci_init, h]
      · simp [pci_init, h]
  · intro mc hmc hlen
    subst hmc
    simp [pci_init, Nat.not_lt.mpr hlen]
  · intro hs
    simp only at hs
    subst hs
    exact ⟨rfl, rfl⟩
  · intro hs
    simp only at hs
    subst hs
    exact ⟨rfl, rfl⟩

/-- C6 witness: on the concrete one-entry table with the standard layout
sizes, pci_init loads the entry and selects the memory-mapped strategy. -/
theorem C6_witness : pci_init 44 16 (some mcfg0) = (Strategy.mcfg, [entry0]) := by
  have h := (C6_pci_init_selection 44 16 0 (some mcfg0) legacyState0
    0 0 0 0 0 0 1).2.1 mcfg0 rfl (by norm_num [mcfg0])
  rw [h]; rfl

/-- C9 helper: a memory-mapped read with an unsupported access size returns
0, performs no bus access, and ends by logging the nonexistent-device
diagnostic (the entry loop falls through even on a matching entry). -/
theorem mcfg_read_unknown_size (physOff : Nat) (m : Nat → Nat)
    (seg bus slot func offset access_size : Nat)
    (h1 : access_size ≠ 1) (h2 : access_size ≠ 2) (h4 : access_size ≠ 4)
    (entries : List mcfg_entry) :
    (mcfg_pci_read physOff entries m seg bus slot func offset access_size).1 = 0 ∧
    (∀ e ∈ (mcfg_pci_read physOff entries m seg bus slot func offset
        access_size).2, busAccess e = false) ∧
    Ev.logNoDevice seg bus slot func ∈
      (mcfg_pci_read physOff entries m seg bus slot func offset access_size).2 := by
  induction entries with
  | nil => simp [mcfg_pci_read, busAccess]
  | cons e rest ih =>
    by_cases hm : e.seg = seg ∧ e.start_bus_number ≤ bus ∧ bus ≤ e.end_bus_number
    · simp only [mcfg_pci_read, if_pos hm, if_neg h1, if_neg h2, if_neg h4]
      refine ⟨ih.1, ?_, List.mem_cons_of_mem _ ih.2.2⟩
      intro ev hev
      rcases List.mem_cons.mp hev with h | h
      · subst h; rfl
      · exact ih.2.1 ev h
    · simp only [mcfg_pci_read, if_neg hm]
      exact ih

/-- C9 helper: a memory-mapped write with an unsupported access size leaves
memory unchanged, performs no bus access, and logs a diagnostic (the
unknown-size one on a matching entry, the nonexistent-device one
otherwise). -/
theorem mcfg_write_unknown_size (physOff : Nat) (m : Nat → Nat)
    (seg bus slot func offset value access_size : Nat)
    (h1 : access_size ≠ 1) (h2 : access_size ≠ 2) (h4 : access_size ≠ 4)
    (entries : List mcfg_entry) :
    (mcfg_pci_write physOff entries m seg bus slot func offset value
        access_size).1 = m ∧
    (∀ e ∈ (mcfg_pci_write physOff entries m seg bus slot func offset value
        access_size).2, busAccess e = false) ∧
    ∃ e ∈ (mcfg_pci_write physOff entries m seg bus slot func offset value
        access_size).2,
      e = Ev.logUnknownSize access_size ∨ e = Ev.logNoDevice seg bus slot func := by
  induction entries with
  | nil => simp [mcfg_pci_write, busAccess]
  | cons e rest ih =>
    by_cases hm : e.seg = seg ∧ e.start_bus_number ≤ bus ∧ bus ≤ e.end_bus_number
    · refine ⟨?_, ?_, ?_⟩
      · simp [mcfg_pci_write, hm, h1, h2, h4]
      · intro ev hev
        simp only [mcfg_pci_write, if_pos hm, if_neg h1, if_neg h2, if_neg h4] at hev
        rcases List.mem_singleton.mp hev with rfl
        rfl
      · refine ⟨Ev.logUnknownSize access_size, ?_, Or.inl rfl⟩
        simp [mcfg_pci_write, hm, h1, h2, h4]
    · simp only [mcfg_pci_write, if_neg hm]
      exact ih

/-- C9: as written the claim says pci_write with an unsupported size
performs no bus/port access; but under the legacy strategy the
configuration-address port 0xCF8 is written before the size check.  At
access size 3 the write trace contains a port access. -/
theorem C9_counterexample :
    (pci_write 0 legacyState0 0 0 0 0 0 0 3).2 =
      [Ev.outd 0xCF8 0x80000000, Ev.logUnknownSize 3] ∧
    ((pci_write 0 legacyState0 0 0 0 0 0 0 3).2).any busAccess = true := by
  exact ⟨by decide, by decide⟩

/-- C9 (amended): for every access size not in {1, 2, 4}, reads return 0,
no data-port or memory access is performed, a diagnostic is logged, and
the call returns normally, under both strategies — except that the legacy
paths still write the configuration-address port 0xCF8 (and nothing else)
before the size check. -/
theorem C9_amended (physOff : Nat) (b : PortSpace) (entries : List mcfg_entry)
    (m : Nat → Nat) (seg bus slot func offset value access_size : Nat)
    (h1 : access_size ≠ 1) (h2 : access_size ≠ 2) (h4 : access_size ≠ 4) :
    (legacy_pci_read b seg bus slot func offset access_size).2.1 = 0 ∧
    (legacy_pci_read b seg bus slot func offset access_size).2.2 =
      [Ev.outd 0xCF8 (make_pci_address bus slot func offset),
       Ev.logUnknownSize access_size] ∧
    (legacy_pci_read b seg bus slot func offset access_size).1.mem = b.mem ∧
    (legacy_pci_write b seg bus slot func offset value access_size).1.mem =
      b.mem ∧
    (legacy_pci_write b seg bus slot func offset value access_size).2 =
      [Ev.outd 0xCF8 (make_pci_address bus slot func offset),
       Ev.logUnknownSize access_size] ∧
    (mcfg_pci_read physOff entries m seg bus slot func offset access_size).1 = 0 ∧
    (∀ e ∈ (mcfg_pci_read physOff entries m seg bus slot func offset
        access_size).2, busAccess e = false) ∧
    Ev.logNoDevice seg bus slot func ∈
      (mcfg_pci_read physOff entries m seg bus slot func offset access_size).2 ∧
    (mcfg_pci_write physOff entries m seg bus slot func offset value
        access_size).1 = m ∧
    (∀ e ∈ (mcfg_pci_write physOff entries m seg bus slot func offset value
        access_size).2, busAccess e = false) ∧
    ∃ e ∈ (mcfg_pci_write physOff entries m seg bus slot func offset value
        access_size).2,
      e = Ev.logUnknownSize access_size ∨
        e = Ev.logNoDevice seg bus slot func := by
  have hr := mcfg_read_unknown_size physOff m seg bus slot func offset
    access_size h1 h2 h4 entries
  have hw := mcfg_write_unknown_size physOff m seg bus slot func offset value
    access_size h1 h2 h4 entries
  refine ⟨?_, ?_, ?_, ?_, ?_, hr.1, hr.2.1, hr.2.2, hw.1, hw.2.1, hw.2.2⟩ <;>
    simp [legacy_pci_read, legacy_pci_write, port_dword_out, h1, h2, h4]

/-- C9 witness: concrete evaluation at access size 3 over the one-entry
table. -/
theorem C9_witness :
    (legacy_pci_read ports0 0 0 0 0 0 3).2.1 = 0 ∧
    (mcfg_pci_read 0 [entry0] mem0 0 0 0 0 0 3).1 = 0 ∧
    Ev.logNoDevice 0 0 0 0 ∈ (mcfg_pci_read 0 [entry0] mem0 0 0 0 0 0 3).2 := by
  have h := C9_amended 0 ports0 [entry0] mem0 0 0 0 0 0 0 3
    (by decide) (by decide) (by decide)
  exact ⟨h.1, h.2.2.2.2.2.1, h.2.2.2.2.2.2.2.1⟩

/-- C3 helper: under the legacy strategy, a write followed by a read with
the same arguments and size returns the written value truncated to the
access width, for any offset (both paths compute the same latch word and
the same data-port lane). -/
theorem legacy_roundtrip (b : PortSpace) (seg bus slot func offset value sz : Nat)
    (hsz : sz = 1 ∨ sz = 2 ∨ sz = 4) :
    (legacy_pci_read (legacy_pci_write b seg bus slot func offset value sz).1
        seg bus slot func offset sz).2.1 = value % 2 ^ (8 * sz) := by
  have h3 : (offset &&& 3) ≤ 3 := Nat.and_le_right
  have h2 : (offset &&& 2) ≤ 2 := Nat.and_le_right
  have hc3a : (0xCFC : Nat) ≤ 0xCFC + (offset &&& 3) := Nat.le_add_right _ _
  have hc3b : 0xCFC + (offset &&& 3) ≤ 0xCFF := by omega
  have hc2a : (0xCFC : Nat) ≤ 0xCFC + (offset &&& 2) := Nat.le_add_right _ _
  have hc2b : 0xCFC + (offset &&& 2) ≤ 0xCFF := by omega
  rcases hsz with rfl | rfl | rfl
  · simp [legacy_pci_read, legacy_pci_write, port_dword_out, port_byte_out,
      port_byte_in, confTarget, hc3a, hc3b, readBytes_writeBytes]
  · simp [legacy_pci_read, legacy_pci_write, port_dword_out, port_word_out,
      port_word_in, confTarget, hc2a, hc2b, readBytes_writeBytes]
  · simp [legacy_pci_read, legacy_pci_write, port_dword_out, port_dword_in,
      confTarget, readBytes_writeBytes]

/-- C3 helper: under the memory-mapped strategy with a single matching
entry, a write followed by a read returns the written value truncated to
the access width, provided or-ing the offset into the device base equals
adding it (the read path uses a bitwise or where the write path adds). -/
theorem mcfg_roundtrip (physOff : Nat) (m : Nat → Nat) (e : mcfg_entry)
    (seg bus slot func offset value sz : Nat)
    (hsz : sz = 1 ∨ sz = 2 ∨ sz = 4)
    (hseg : e.seg = seg) (hb1 : e.start_bus_number ≤ bus)
    (hb2 : bus ≤ e.end_bus_number)
    (hor : mcfg_device_base e bus slot func ||| offset =
      mcfg_device_base e bus slot func + offset) :
    (mcfg_pci_read physOff [e]
        (mcfg_pci_write physOff [e] m seg bus slot func offset value sz).1
        seg bus slot func offset sz).1 = value % 2 ^ (8 * sz) := by
  have hm : e.seg = seg ∧ e.start_bus_number ≤ bus ∧ bus ≤ e.end_bus_number :=
    ⟨hseg, hb1, hb2⟩
  rcases hsz with rfl | rfl | rfl
  · simp [mcfg_pci_read, mcfg_pci_write, hm, mminb, mmoutb, hor,
      readBytes_writeBytes]
  · simp [mcfg_pci_read, mcfg_pci_write, hm, mminw, mmoutw, hor,
      readBytes_writeBytes]
  · simp [mcfg_pci_read, mcfg_pci_write, hm, mmind, mmoutd, hor,
      readBytes_writeBytes]

/-- C3: as written the claim fails: the memory-mapped read path computes
its target address with a bitwise or of the offset while the write path
adds it.  With the one-entry table (base 0, bus range [0,0]), writing 0xAB
at function 1, offset 0x1000, size 1 stores to address 0x2000 but the
read with the same arguments reads address 0x1000 and returns 0. -/
theorem C3_counterexample :
    (pci_read 0 (pci_write 0 mcfgState0 0 0 0 1 0x1000 0xAB 1).1
        0 0 0 1 0x1000 1).2.1 = 0 ∧
    (0 : Nat) ≠ 0xAB ∧
    (pci_write 0 mcfgState0 0 0 0 1 0x1000 0xAB 1).2 =
      [Ev.memWriteB 0x2000 0xAB] ∧
    (pci_read 0 mcfgState0 0 0 0 1 0x1000 1).2.2 = [Ev.memReadB 0x1000] := by
  refine ⟨by decide, by decide, by decide, by decide⟩

/-- C3 (amended): writing then reading the same (segment, bus, slot,
function, offset) with matching size in {1, 2, 4} returns the written
value truncated to the access width, under the legacy strategy for all
arguments, and under the memory-mapped strategy with a matching entry
whenever or-ing the offset into the computed device base coincides with
adding it (e.g. a 4096-aligned base and offset < 4096); in general the
memory-mapped read path ors the offset while the write path adds it. -/
theorem C3_amended (physOff : Nat) (b : PortSpace) (m : Nat → Nat)
    (es : List mcfg_entry) (e : mcfg_entry)
    (seg bus slot func offset value sz : Nat)
    (hsz : sz = 1 ∨ sz = 2 ∨ sz = 4)
    (hseg : e.seg = seg) (hb1 : e.start_bus_number ≤ bus)
    (hb2 : bus ≤ e.end_bus_number)
    (hor : mcfg_device_base e bus slot func ||| offset =
      mcfg_device_base e bus slot func + offset) :
    (pci_read physOff
        (pci_write physOff (PciState.mk Strategy.legacy es b m)
          seg bus slot func offset value sz).1
        seg bus slot func offset sz).2.1 = value % 2 ^ (8 * sz) ∧
    (pci_read physOff
        (pci_write physOff (PciState.mk Strategy.mcfg [e] b m)
          seg bus slot func offset value sz).1
        seg bus slot func offset sz).2.1 = value % 2 ^ (8 * sz) := by
  constructor
  · exact legacy_roundtrip b seg bus slot func offset value sz hsz
  · exact mcfg_roundtrip physOff m e seg bus slot func offset value sz hsz
      hseg hb1 hb2 hor

/-- C3 witness: concrete write-then-read of 0xAB at size 1 under both
strategies over the one-entry table. -/
theorem C3_witness :
    (pci_read 0 (pci_write 0 (PciState.mk Strategy.legacy [] ports0 mem0)
        0 0 0 0 0 0xAB 1).1 0 0 0 0 0 1).2.1 = 0xAB % 2 ^ (8 * 1) ∧
    (pci_read 0 (pci_write 0 (PciState.mk Strategy.mcfg [entry0] ports0 mem0)
        0 0 0 0 0 0xAB 1).1 0 0 0 0 0 1).2.1 = 0xAB % 2 ^ (8 * 1) :=
  C3_amended 0 ports0 mem0 [] entry0 0 0 0 0 0 0xAB 1 (Or.inl rfl)
    (by decide) (by decide) (by decide) (by decide)

end Pci

namespace Sched

theorem writesUnderLock_map (d : Nat) {α : Type} (g : α → TEv) (l : List α)
    (r : List TEv) (hg : ∀ x, ∃ a b, g x = TEv.mapPage a b) :
    writesUnderLock d (l.map g ++ r) = writesUnderLock d r := by
  induction l with
  | nil => rfl
  | cons x xs ih =>
    obtain ⟨a, b, hx⟩ := hg x
    simpa [hx, writesUnderLock] using ih

/-- C1: as written the claim says thread_block holds the global thread lock
across its writes to state and block reason; but thread_block only disables
interrupts, and its state/block writes happen at lock depth 0. -/
theorem C1_counterexample :
    writesUnderLock 0 (thread_block tmem0 block_on.ON_WAIT).2 = false := rfl

/-- C1 (amended): the state/block-reason writes and the next-id update in
alloc_new_thread, thread_init, thread_create, and thread_sleep happen while
the global thread lock is held; thread_block and thread_unblock instead
perform their writes with interrupts disabled (cli) but without taking the
lock; thread_exit never takes the lock (its trace contains no lock event,
so its state write is not under the lock), and disables interrupts only
through the thread_unblock it calls on the BLOCKED/ON_WAIT path — its
trace contains a cli exactly in that case. -/
theorem C1_amended (cfg : ThreadCfg) (proc : process) (tmem : thread)
    (stack_addr nid addr args timer_tick sleep_ticks return_val : Nat)
    (thrd : thread) (reason : block_on) :
    writesUnderLock 0 (alloc_new_thread cfg proc tmem stack_addr nid).2 = true ∧
    writesUnderLock 0 (thread_init cfg proc tmem stack_addr nid addr args).2 =
      true ∧
    writesUnderLock 0 (thread_create cfg proc tmem stack_addr nid addr args).2 =
      true ∧
    writesUnderLock 0 (thread_sleep thrd timer_tick sleep_ticks).2 = true ∧
    (thread_block thrd reason).2 =
      [TEv.cli, TEv.writeBlock reason, TEv.writeState thread_state.BLOCKED,
       TEv.yield] ∧
    (thread_unblock thrd).2 =
      [TEv.cli, TEv.writeBlock block_on.NOTHING,
       TEv.writeState thread_state.READY] ∧
    writesUnderLock 0 (thread_block thrd reason).2 = false ∧
    TEv.lock ∉ (thread_exit cfg thrd proc return_val).2.2.2 ∧
    (TEv.cli ∈ (thread_exit cfg thrd proc return_val).2.2.2 ↔
      thrd.state_t = thread_state.BLOCKED ∧
        thrd.block_t = block_on.ON_WAIT) ∧
    writesUnderLock 0 (thread_exit cfg thrd proc return_val).2.2.2 = false := by
  have halloc : writesUnderLock 0
      (alloc_new_thread cfg proc tmem stack_addr nid).2 = true := by
    by_cases hs : stack_addr = 0
    all_goals
      simp [alloc_new_thread, hs, writesUnderLock]
      rw [writesUnderLock_map]
      · simp [writesUnderLock]
      · intro x; exact ⟨_, _, rfl⟩
  have hinit : writesUnderLock 0
      (thread_init cfg proc tmem stack_addr nid addr args).2 = true := by
    by_cases hs : stack_addr = 0
    all_goals
      simp [thread_init, alloc_new_thread, hs, writesUnderLock]
      rw [writesUnderLock_map]
      · simp [writesUnderLock]
      · intro x; exact ⟨_, _, rfl⟩
  have hcreate : writesUnderLock 0
      (thread_create cfg proc tmem stack_addr nid addr args).2 = true := by
    by_cases hs : stack_addr = 0
    all_goals
      simp [thread_create, alloc_new_thread, hs, writesUnderLock]
      rw [writesUnderLock_map]
      · simp [writesUnderLock]
      · intro x; exact ⟨_, _, rfl⟩
  have hexit : TEv.lock ∉ (thread_exit cfg thrd proc return_val).2.2.2 ∧
      (TEv.cli ∈ (thread_exit cfg thrd proc return_val).2.2.2 ↔
        thrd.state_t = thread_state.BLOCKED ∧
          thrd.block_t = block_on.ON_WAIT) ∧
      writesUnderLock 0 (thread_exit cfg thrd proc return_val).2.2.2 =
        false := by
    by_cases hw : thrd.state_t = thread_state.BLOCKED ∧
        thrd.block_t = block_on.ON_WAIT
    · cases hmain : proc.ttable.head? with
      | none => simp [thread_exit, thread_unblock, hw, hmain, writesUnderLock]
      | some t0 =>
        by_cases ht : t0.tid = thrd.tid <;>
          simp [thread_exit, thread_unblock, hw, hmain, ht, writesUnderLock]
    · cases hmain : proc.ttable.head? with
      | none => simp [thread_exit, thread_unblock, hw, hmain, writesUnderLock]
      | some t0 =>
        by_cases ht : t0.tid = thrd.tid <;>
          simp [thread_exit, thread_unblock, hw, hmain, ht, writesUnderLock]
  refine ⟨halloc, hinit, hcreate, ?_, rfl, rfl, rfl, hexit.1, hexit.2.1,
    hexit.2.2⟩
  simp [thread_sleep, thread_block, writesUnderLock]

/-- C4: on a successful allocation, the initial execution context sits at
the top of the just-allocated kernel stack minus the context-save-area
size, and is zero-initialized.  The source computes the context address
from `KSTACK_SIZE` although the stack was allocated with `TSTACK_SIZE`;
both constants live in a header outside these sources and the spec
describes a single fixed stack size, hence the hypothesis equating them. -/
theorem C4_context_placement (cfg : ThreadCfg) (proc : process) (tmem : thread)
    (stack_addr nid : Nat) (hs : stack_addr ≠ 0)
    (hk : cfg.KSTACK_SIZE = cfg.TSTACK_SIZE) :
    ((alloc_new_thread cfg proc tmem stack_addr nid).1.map fun r =>
        (r.1.tstack, r.1.context_addr, r.1.context)) =
      some (stack_addr,
        stack_addr + cfg.TSTACK_SIZE - cfg.sizeof_cpu_context,
        cpu_context_zero) := by
  simp [alloc_new_thread, hs, hk]

/-- C4 witness: concrete allocation with 16 KiB stacks and a 200-byte
context area places the context at the end of the stack, zeroed. -/
theorem C4_witness :
    ((alloc_new_thread cfg0 proc0 tmem0 0x100000 1).1.map fun r =>
        (r.1.tstack, r.1.context_addr, r.1.context)) =
      some (0x100000, 0x100000 + cfg0.TSTACK_SIZE - cfg0.sizeof_cpu_context,
        cpu_context_zero) :=
  C4_context_placement cfg0 proc0 tmem0 0x100000 1 (by decide) rfl

/-- C5: thread_exit writes the process return code (the low byte of the
return value) exactly when the exiting thread is the head of the thread
table; alloc_new_thread, thread_init and thread_create — the only other
operations of this file that touch the process — never change it
(thread_block, thread_unblock and thread_sleep do not access the process
at all). -/
theorem C5_return_code (cfg : ThreadCfg) (thrd : thread) (proc : process)
    (v : Nat) (tmem tmem2 : thread) (stack_addr nid addr args : Nat) :
    (thread_exit cfg thrd proc v).2.1.return_code =
      (match proc.ttable.head? with
       | none => proc.return_code
       | some t0 => if t0.tid = thrd.tid then v &&& 0xFF
                    else proc.return_code) ∧
    ((alloc_new_thread cfg proc tmem stack_addr nid).1.elim proc fun r =>
        r.2.1).return_code = proc.return_code ∧
    ((thread_init cfg proc tmem stack_addr nid addr args).1.elim proc fun r =>
        r.1).return_code = proc.return_code ∧
    ((thread_create cfg proc tmem2 stack_addr nid addr args).1.elim proc
        fun r => r.1).return_code = proc.return_code := by
  have hmask : v &&& 0xFF = v % 256 := by
    have h := Nat.and_pow_two_sub_one_eq_mod v 8
    norm_num at h
    exact h
  refine ⟨?_, ?_, ?_, ?_⟩
  · cases hmain : proc.ttable.head? with
    | none => simp [thread_exit, hmain]
    | some t0 =>
      by_cases ht : t0.tid = thrd.tid <;>
        simp [thread_exit, hmain, ht, hmask]
  · by_cases hs : stack_addr = 0 <;> simp [alloc_new_thread, hs]
  · by_cases hs : stack_addr = 0 <;> simp [thread_init, alloc_new_thread, hs]
  · by_cases hs : stack_addr = 0 <;> simp [thread_create, alloc_new_thread, hs]

/-- C8: a successful alloc_new_thread leaves the new thread in state
INITIAL with block reason NOTHING; thread_init and thread_create leave it
READY and appended as the last element of the owning process's thread
table. -/
theorem C8_states (cfg : ThreadCfg) (proc : process) (tmem tmem2 : thread)
    (stack_addr nid addr args : Nat) (hs : stack_addr ≠ 0) :
    ((alloc_new_thread cfg proc tmem stack_addr nid).1.map fun r =>
        (r.1.state_t, r.1.block_t)) =
      some (thread_state.INITIAL, block_on.NOTHING) ∧
    ((thread_init cfg proc tmem stack_addr nid addr args).1.map fun r =>
        (r.1.ttable.getLast?.map thread.state_t, r.1.ttable.dropLast)) =
      some (some thread_state.READY, proc.ttable) ∧
    ((thread_create cfg proc tmem2 stack_addr nid addr args).1.map fun r =>
        (r.1.ttable.getLast?.map thread.state_t, r.1.ttable.dropLast)) =
      some (some thread_state.READY, proc.ttable) := by
  refine ⟨by simp [alloc_new_thread, hs], ?_, ?_⟩
  · simp [thread_init, alloc_new_thread, hs]
  · simp [thread_create, alloc_new_thread, hs]

/-- C8 witness: concrete allocation yields INITIAL/NOTHING. -/
theorem C8_witness :
    ((alloc_new_thread cfg0 proc0 tmem0 0x100000 1).1.map fun r =>
        (r.1.state_t, r.1.block_t)) =
      some (thread_state.INITIAL, block_on.NOTHING) :=
  (C8_states cfg0 proc0 tmem0 tmem0 0x100000 1 0 0 (by decide)).1

end Sched

end Polaris
